import Mathlib

/-!
Shallow embedding of flipy (a Flickr REST API wrapper, `flipy.py`) and
verification of claims about its response mapper, request signer,
pagination generator and response parsing.

The embedding models:
  * `Node` — a parsed XML element (tag, attributes, children, text), the
    read-only interface the mapper consumes from the external XML parser;
  * `Entity` — the dynamically-typed result of `Response.get`: a Python
    string / `None` (`scalar`), a `Response` object (`structured`), or a
    Python list (`elist`);
  * `mapNode` / `buildParts` — `Response.get` and its child-processing loop;
  * `parse_response` — `Flipy.parse_response` including the error path
    through `FlipyFlickrError.__init__` (whose `assert` is modelled);
  * `paginateGo` / `paginateAll` — `Method.paginate`, run with explicit
    fuel (the Python generator is consumed to completion);
  * `sortArgs` / `sigPayload` / `signArgs` — the signing part of
    `Flipy.__url`, with the MD5 digest abstracted as a function parameter
    (hashlib is an external collaborator of the core).
-/

/-- Client session state (`Flipy.__init__`): API key, optional shared
secret, optional auth token. -/
structure Session where
  api_key : String
  secret : Option String
  token : Option String
deriving Repr

/-- A parsed XML element as the mapper consumes it: tag name, attribute
map (unique keys, document order), ordered element children, text. -/
structure Node where
  tag : String
  attrib : List (String × String)
  children : List Node
  text : Option String
deriving Repr

/-- The dynamically-typed result of mapping one XML element
(`Response.get`): a Python string or `None` (`scalar`), a `Response`
object with tag, field map and positional children (`structured`), or a
Python list (`elist`, produced by the Multiples-Table accumulation and by
`parse_response` for multi-child envelopes). -/
inductive Entity where
  | scalar : Option String → Entity
  | structured : String → List (String × Entity) → List Entity → Entity
  | elist : List Entity → Entity
deriving Repr

/-- Association-list lookup, first matching key (Python dict `has_key` /
`[]`; keys are unique in every dict the program builds). -/
def alookup (k : String) : List (String × β) → Option β
  | [] => none
  | (k₁, v) :: rest => if k₁ = k then some v else alookup k rest

/-- Association-list store (Python dict `d[k] = v`): replace the value in
place if the key exists, else append the binding at the end. -/
def aset (k : String) (v : β) : List (String × β) → List (String × β)
  | [] => [(k, v)]
  | (k₁, v₁) :: rest => if k₁ = k then (k, v) :: rest else (k₁, v₁) :: aset k v rest

/-- Seed field map from the XML attributes (`attrs = dict(node.attrib)`,
string values). -/
def attrsInit (attrib : List (String × String)) : List (String × Entity) :=
  attrib.map (fun kv => (kv.1, Entity.scalar (some kv.2)))

/-- The `node.tag.endswith('s')` test: the last character is `'s'`
(written over the character list so that it evaluates by reduction). -/
def endsInS (t : String) : Bool := t.toList.getLast? == some 's'

/-- The `isinstance(·, list)` test used by the multiples branch. -/
def isPyList : Entity → Bool
  | .elist _ => true
  | _ => false

/-- The Multiples Table `Response.MULTIPLES`: container tags whose listed
child tags may repeat without being simple plurals. -/
def MULTIPLES : String → List String
  | "activity" => ["event"]
  | "iconsphoto" => ["photo"]
  | "collection" => ["set", "collection"]
  | "category" => ["subcat", "group"]
  | "photo" => ["exif", "person"]
  | "uploader" => ["ticket"]
  | "photoset" => ["photo"]
  | "cluster" => ["tag"]
  | "hottags" => ["tag"]
  | "tag" => ["raw"]
  | "people" => ["person"]
  | _ => []

/-- The only error `Response.get` raises: `FlipyAttributeConflictError`. -/
inductive MapErr where
  | attributeConflict
deriving Repr, DecidableEq

/-- A registered custom response constructor: called as
`constructor(flickr, node.tag, attrs, children)` (`Response.get` line 101;
the `Response`, `User` and `Photo` constructors all have this shape). -/
def Ctor : Type :=
  Session → String → List (String × Entity) → List Entity → Entity

/-- A custom-constructor registry (`Response.CUSTOM`): tag name to
registered constructor, or none. -/
def Registry : Type := String → Option Ctor

mutual

/-- Embedding of `Response.get`: map a `Node` to an `Entity`.  Nodes with
no attributes and no element children map to their text; otherwise the
field map and positional children are computed by `buildParts` and the
constructor — the registered one if `node.tag` is in the registry, else
the default `Response` — is applied to `(flickr, node.tag, attrs,
children)`. -/
def mapNode (CUSTOM : Registry) (fl : Session) (n : Node) : Except MapErr Entity :=
  match n with
  | ⟨tag, attrib, children, text⟩ =>
    if attrib.length = 0 ∧ children.length = 0 then
      .ok (.scalar text)
    else
      let sing : Option String := if endsInS tag then some (tag.dropRight 1) else none
      match buildParts CUSTOM fl sing tag children (attrsInit attrib) [] with
      | .error e => .error e
      | .ok (attrs, kids) =>
        match CUSTOM tag with
        | some ctor => .ok (ctor fl tag attrs kids)
        | none => .ok (.structured tag attrs kids)

/-- Embedding of the child loop of `Response.get` (lines 79–98): fold over
the element children in document order, accumulating the field map and the
positional child list, raising on attribute conflicts. -/
def buildParts (CUSTOM : Registry) (fl : Session) (sing : Option String) (ptag : String) :
    List Node → List (String × Entity) → List Entity →
    Except MapErr (List (String × Entity) × List Entity)
  | [], attrs, kids => .ok (attrs, kids)
  | c :: rest, attrs, kids =>
    if sing = some c.tag then
      match mapNode CUSTOM fl c with
      | .error e => .error e
      | .ok e => buildParts CUSTOM fl sing ptag rest attrs (kids ++ [e])
    else if c.tag ∈ MULTIPLES ptag then
      match alookup c.tag attrs with
      | some (.elist l) =>
        match mapNode CUSTOM fl c with
        | .error e => .error e
        | .ok e => buildParts CUSTOM fl sing ptag rest (aset c.tag (.elist (l ++ [e])) attrs) kids
      | some _ => .error .attributeConflict
      | none =>
        match mapNode CUSTOM fl c with
        | .error e => .error e
        | .ok e => buildParts CUSTOM fl sing ptag rest (aset c.tag (.elist [e]) attrs) kids
    else
      match alookup c.tag attrs with
      | some _ => .error .attributeConflict
      | none =>
        match mapNode CUSTOM fl c with
        | .error e => .error e
        | .ok e => buildParts CUSTOM fl sing ptag rest (aset c.tag e attrs) kids

end

/-- The empty registry (no custom responses registered). -/
def emptyRegistry : Registry := fun _ => none

example :
    mapNode emptyRegistry ⟨"k", none, none⟩ ⟨"photo", [("id", "7")], [], none⟩ =
      .ok (.structured "photo" [("id", .scalar (some "7"))] []) := by
  rfl

example :
    mapNode emptyRegistry ⟨"k", none, none⟩ ⟨"title", [], [], some "hi"⟩ =
      .ok (.scalar (some "hi")) := by
  rfl

/-- Errors observable from `parse_response` and `paginate`: the mapper's
attribute conflict, `FlipyFlickrError` (carrying the `code` and `msg`
attributes of the `err` child), a failed `assert` inside
`FlipyFlickrError.__init__`, Python `AttributeError` (attribute access on
a non-`Response` value), and Python `TypeError` (iterating `None`). -/
inductive Err where
  | attributeConflict
  | flickrError (code msg : Option String)
  | assertionError
  | attributeError
  | typeError
deriving Repr, DecidableEq

/-- Attribute lookup on a `Node` (`node.get(k)` in lxml): the attribute
value, or `None` when absent. -/
def nodeGet (n : Node) (k : String) : Option String :=
  alookup k n.attrib

/-- Mapping a whole child list in document order (the comprehension
`[Response.get(flickr, c) for c in children]`). -/
def mapChildrenList (CUSTOM : Registry) (fl : Session) : List Node → Except MapErr (List Entity)
  | [] => .ok []
  | c :: rest =>
    match mapNode CUSTOM fl c with
    | .error e => .error e
    | .ok e =>
      match mapChildrenList CUSTOM fl rest with
      | .error e₂ => .error e₂
      | .ok es => .ok (e :: es)

/-- Embedding of `Flipy.parse_response` plus the `FlipyFlickrError`
constructor it calls on failure envelopes.  If the envelope's `stat`
attribute is not `"ok"`, `FlipyFlickrError(node)` runs: its `assert
rsp.get('stat') == 'fail'` fails for any other status, otherwise the first
`err` child supplies the code and message (no `err` child makes
`err.get('code')` an `AttributeError` on `None`).  On success, one child
maps directly; any other number of children maps to a Python list. -/
def parse_response (CUSTOM : Registry) (fl : Session) (rsp : Node) : Except Err Entity :=
  if nodeGet rsp "stat" ≠ some "ok" then
    if nodeGet rsp "stat" ≠ some "fail" then
      .error .assertionError
    else
      match rsp.children.find? (fun c => c.tag == "err") with
      | none => .error .attributeError
      | some errNode => .error (.flickrError (nodeGet errNode "code") (nodeGet errNode "msg"))
  else
    match rsp.children with
    | [c] =>
      match mapNode CUSTOM fl c with
      | .error .attributeConflict => .error .attributeConflict
      | .ok e => .ok e
    | cs =>
      match mapChildrenList CUSTOM fl cs with
      | .error .attributeConflict => .error .attributeConflict
      | .ok es => .ok (.elist es)

/-- Python `x == None` / `x != None` test on an entity: only the Python
`None` value (an absent or `None`-valued field) is `None`. -/
def isNone : Entity → Bool
  | .scalar none => true
  | _ => false

/-- Attribute access as `paginate` performs it (`results.pages`, …): on a
`Response`, `__getattr__` returns the field value or Python `None` when
the field is absent; on a Python list, string or `None` the attribute does
not exist and an `AttributeError` is raised. -/
def attrOrNone (e : Entity) (k : String) : Except Err Entity :=
  match e with
  | .structured _ attrs _ =>
    match alookup k attrs with
    | some v => .ok v
    | none => .ok (.scalar none)
  | _ => .error .attributeError

/-- Python `==` between two attribute values as used in
`results.page == results.pages`: value equality on strings and `None`;
two distinct `Response` or list objects compare by identity, hence
unequal. -/
def pyEq : Entity → Entity → Bool
  | .scalar a, .scalar b => a == b
  | _, _ => false

/-- Python `x == '1'` on an attribute value (`results.has_next_page`). -/
def pyEqStr (e : Entity) (s : String) : Bool :=
  match e with
  | .scalar (some t) => t == s
  | _ => false

/-- Iteration `for result in results` over a parse result: a `Response`
iterates its positional children via `__getitem__`; a Python list iterates
its elements; a string iterates its characters; `None` raises
`TypeError`. -/
def entIter : Entity → Except Err (List Entity)
  | .structured _ _ kids => .ok kids
  | .elist l => .ok l
  | .scalar (some s) => .ok (s.toList.map (fun ch => Entity.scalar (some (String.singleton ch))))
  | .scalar none => .error .typeError

/-- Indexing `results[i]` (`Response.__getitem__` / list indexing). -/
def entGetItem (e : Entity) (i : Nat) : Option Entity :=
  match e with
  | .structured _ _ kids => kids[i]?
  | .elist l => l[i]?
  | .scalar _ => none

/-- Continuation decision at the bottom of the `paginate` loop: `true`
means fetch another page.  With a non-`None` `pages` field, continue
unless `page == pages`; else with a non-`None` `has_next_page` field,
continue unless it is not `'1'`; else stop.  Attributes are read in the
order the Python conditions evaluate them. -/
def pagDecide (results : Entity) : Except Err Bool :=
  match attrOrNone results "pages" with
  | .error e => .error e
  | .ok pages =>
    if isNone pages then
      match attrOrNone results "has_next_page" with
      | .error e => .error e
      | .ok hnp => if isNone hnp then .ok false else .ok (pyEqStr hnp "1")
    else
      match attrOrNone results "page" with
      | .error e => .error e
      | .ok page => .ok (!pyEq page pages)

/-- Outcome of consuming the `paginate` generator to completion: normal
exhaustion with the yielded items and the number of fetches performed, an
error raised after yielding some items, or fuel exhaustion (the loop was
still going). -/
inductive PagOut where
  | ok (items : List Entity) (fetches : Nat)
  | err (e : Err) (items : List Entity) (fetches : Nat)
  | fuelOut
deriving Repr

/-- Embedding of the `while True` loop of `Method.paginate`: each
iteration fetches the node for the current page (`fetch` abstracts
`self(**args)` up to `parse_response`), parses it, yields every item of
the result, then decides whether to fetch `page + 1`. -/
def paginateGo (CUSTOM : Registry) (fl : Session) (fetch : Nat → Node) :
    Nat → Nat → List Entity → Nat → PagOut
  | 0, _, _, _ => .fuelOut
  | fuel + 1, page, acc, nf =>
    match parse_response CUSTOM fl (fetch page) with
    | .error e => .err e acc (nf + 1)
    | .ok results =>
      match entIter results with
      | .error e => .err e acc (nf + 1)
      | .ok items =>
        match pagDecide results with
        | .error e => .err e (acc ++ items) (nf + 1)
        | .ok true => paginateGo CUSTOM fl fetch fuel (page + 1) (acc ++ items) (nf + 1)
        | .ok false => .ok (acc ++ items) (nf + 1)

/-- `Method.paginate`: start at `args['page'] = 1` with nothing yielded. -/
def paginateAll (CUSTOM : Registry) (fl : Session) (fetch : Nat → Node) (fuel : Nat) : PagOut :=
  paginateGo CUSTOM fl fetch fuel 1 [] 0

/-- Comparator of the `items.sort(lambda x,y: cmp(x[0], y[0]))` step of
`Flipy.__url`: order argument pairs by byte/lexicographic comparison of
their keys (compared as character sequences). -/
def argOrder (p q : String × String) : Prop := p.1.toList ≤ q.1.toList

instance : DecidableRel argOrder :=
  fun p q => inferInstanceAs (Decidable (p.1.toList ≤ q.1.toList))

instance : IsTotal (String × String) argOrder := ⟨fun p q => le_total p.1.toList q.1.toList⟩

instance : IsTrans (String × String) argOrder := ⟨fun _ _ _ => le_trans⟩

/-- The `items.sort(lambda x,y: cmp(x[0], y[0]))` step of `Flipy.__url`:
sort the argument pairs by key (any comparison sort agrees on key-unique
lists; insertion sort realizes it). -/
def sortArgs (l : List (String × String)) : List (String × String) :=
  List.insertionSort argOrder l

/-- The byte string fed to the digest in `Flipy.__url`: the secret, then
each `key + value` in sorted order, with no separators (`hash.update(self.secret)`
followed by `hash.update(k + v)` per pair streams exactly this string). -/
def sigPayload (secret : String) (items : List (String × String)) : String :=
  items.foldl (fun s kv => s ++ kv.1 ++ kv.2) secret

/-- The signature `Flipy.__url` computes: the hex digest (`md5` abstracts
`hashlib.md5(...).hexdigest()`, an external collaborator) of the sorted,
concatenated payload. -/
def signArgs (md5 : String → String) (secret : String) (a : List (String × String)) : String :=
  md5 (sigPayload secret (sortArgs a))

/-- The `a['api_sig'] = hash.hexdigest()` step: store the signature in the
argument map under the reserved key. -/
def addSig (md5 : String → String) (secret : String) (a : List (String × String)) :
    List (String × String) :=
  aset "api_sig" (signArgs md5 secret a) a

example :
    parse_response emptyRegistry ⟨"k", none, none⟩
      ⟨"rsp", [("stat", "fail")], [⟨"err", [("code", "1"), ("msg", "not found")], [], none⟩], none⟩ =
      .error (.flickrError (some "1") (some "not found")) := by
  rfl

/-- C8: accessing a field name absent from a Structured Entity's field
map through `Response.__getattr__` returns Python `None` (the absent
value) and raises no exception. -/
theorem missing_field_resolves_to_none (tag : String) (attrs : List (String × Entity))
    (kids : List Entity) (key : String) (h : alookup key attrs = none) :
    attrOrNone (.structured tag attrs kids) key = .ok (.scalar none) := by
  simp [attrOrNone, h]

/-- Witness for `missing_field_resolves_to_none` at a concrete entity and
key. -/
theorem missing_field_resolves_to_none_witness :
    alookup "owner" [("id", Entity.scalar (some "7"))] = none ∧
    attrOrNone (.structured "photo" [("id", Entity.scalar (some "7"))] []) "owner" =
      .ok (.scalar none) :=
  ⟨rfl, missing_field_resolves_to_none "photo" [("id", Entity.scalar (some "7"))] [] "owner" rfl⟩

/-- C10: an envelope whose `stat` attribute is `"ok"` but which has zero
element children parses to an empty Python list, not an error. -/
theorem empty_ok_envelope_parses_to_empty_list (CUSTOM : Registry) (fl : Session)
    (tag : String) (attrib : List (String × String)) (text : Option String)
    (hstat : alookup "stat" attrib = some "ok") :
    parse_response CUSTOM fl ⟨tag, attrib, [], text⟩ = .ok (.elist []) := by
  simp [parse_response, nodeGet, hstat, mapChildrenList]

/-- Witness for `empty_ok_envelope_parses_to_empty_list` at a concrete
envelope node. -/
theorem empty_ok_envelope_parses_to_empty_list_witness :
    alookup "stat" [("stat", "ok")] = some "ok" ∧
    parse_response emptyRegistry ⟨"k", none, none⟩ ⟨"rsp", [("stat", "ok")], [], none⟩ =
      .ok (.elist []) :=
  ⟨rfl, empty_ok_envelope_parses_to_empty_list emptyRegistry ⟨"k", none, none⟩
    "rsp" [("stat", "ok")] none rfl⟩


/-- C9: when the first response is a Structured Entity exposing neither a
`pages` field nor a `has_next_page` field, `paginate` yields exactly its
positional children, performs exactly one fetch, and terminates. -/
theorem no_paging_signal_single_fetch (CUSTOM : Registry) (fl : Session) (fetch : Nat → Node)
    (fuel : Nat) (t : String) (attrs : List (String × Entity)) (kids : List Entity)
    (hfuel : 1 ≤ fuel)
    (h1 : parse_response CUSTOM fl (fetch 1) = .ok (.structured t attrs kids))
    (hp : alookup "pages" attrs = none)
    (hh : alookup "has_next_page" attrs = none) :
    paginateAll CUSTOM fl fetch fuel = .ok kids 1 := by
  obtain ⟨n, rfl⟩ : ∃ n, fuel = n + 1 := ⟨fuel - 1, by omega⟩
  simp [paginateAll, paginateGo, h1, entIter, pagDecide, attrOrNone, hp, hh, isNone]

/-- C3: with a page-1 response carrying `page='1'`, `pages='2'` and two
positional children and a page-2 response carrying `page='2'`, `pages='2'`
and one positional child, `paginate` yields the three items in order
across exactly two fetches and then stops. -/
theorem two_page_paginate_three_items (CUSTOM : Registry) (fl : Session) (fetch : Nat → Node)
    (fuel : Nat) (t₁ t₂ : String) (a₁ a₂ : List (String × Entity)) (k₁ k₂ : List Entity)
    (hfuel : 2 ≤ fuel)
    (h₁ : parse_response CUSTOM fl (fetch 1) = .ok (.structured t₁ a₁ k₁))
    (hpage₁ : alookup "page" a₁ = some (.scalar (some "1")))
    (hpages₁ : alookup "pages" a₁ = some (.scalar (some "2")))
    (hlen₁ : k₁.length = 2)
    (h₂ : parse_response CUSTOM fl (fetch 2) = .ok (.structured t₂ a₂ k₂))
    (hpage₂ : alookup "page" a₂ = some (.scalar (some "2")))
    (hpages₂ : alookup "pages" a₂ = some (.scalar (some "2")))
    (hlen₂ : k₂.length = 1) :
    paginateAll CUSTOM fl fetch fuel = .ok (k₁ ++ k₂) 2 ∧ (k₁ ++ k₂).length = 3 := by
  obtain ⟨n, rfl⟩ : ∃ n, fuel = n + 2 := ⟨fuel - 2, by omega⟩
  constructor
  · simp [paginateAll, paginateGo, h₁, h₂, entIter, pagDecide, attrOrNone,
      hpage₁, hpages₁, hpage₂, hpages₂, isNone, pyEq]
  · simp [hlen₁, hlen₂]

/-- A concrete session for witnesses. -/
def sess0 : Session := ⟨"key", none, none⟩

/-- A mapped `photo` element with a given id, for witnesses. -/
def photoEnt (i : String) : Entity := .structured "photo" [("id", .scalar (some i))] []

/-- Page-1 envelope of the C3 scenario: `page=1, pages=2`, two items. -/
def rspPage1 : Node :=
  ⟨"rsp", [("stat", "ok")],
    [⟨"photos", [("page", "1"), ("pages", "2")],
      [⟨"photo", [("id", "1")], [], none⟩, ⟨"photo", [("id", "2")], [], none⟩], none⟩], none⟩

/-- Page-2 envelope of the C3 scenario: `page=2, pages=2`, one item. -/
def rspPage2 : Node :=
  ⟨"rsp", [("stat", "ok")],
    [⟨"photos", [("page", "2"), ("pages", "2")],
      [⟨"photo", [("id", "3")], [], none⟩], none⟩], none⟩

/-- The fetch sequence of the C3 scenario. -/
def fetchTwoPages : Nat → Node := fun p => if p = 2 then rspPage2 else rspPage1

/-- Witness for `two_page_paginate_three_items` on a concrete two-page
fetch sequence. -/
theorem two_page_paginate_three_items_witness :
    2 ≤ 2 ∧
    paginateAll emptyRegistry sess0 fetchTwoPages 2 =
      .ok [photoEnt "1", photoEnt "2", photoEnt "3"] 2 :=
  ⟨Nat.le_refl 2,
    (two_page_paginate_three_items emptyRegistry sess0 fetchTwoPages 2
      "photos" "photos"
      [("page", .scalar (some "1")), ("pages", .scalar (some "2"))]
      [("page", .scalar (some "2")), ("pages", .scalar (some "2"))]
      [photoEnt "1", photoEnt "2"] [photoEnt "3"]
      (Nat.le_refl 2) (by rfl) rfl rfl rfl (by rfl) rfl rfl rfl).1⟩

/-- Envelope with no pagination fields for the C9 scenario. -/
def rspNoPaging : Node :=
  ⟨"rsp", [("stat", "ok")],
    [⟨"photos", [("total", "1")], [⟨"photo", [("id", "1")], [], none⟩], none⟩], none⟩

/-- Witness for `no_paging_signal_single_fetch` on a concrete fetch. -/
theorem no_paging_signal_single_fetch_witness :
    1 ≤ 1 ∧
    paginateAll emptyRegistry sess0 (fun _ => rspNoPaging) 1 = .ok [photoEnt "1"] 1 :=
  ⟨Nat.le_refl 1,
    no_paging_signal_single_fetch emptyRegistry sess0 (fun _ => rspNoPaging) 1
      "photos" [("total", .scalar (some "1"))] [photoEnt "1"]
      (Nat.le_refl 1) (by rfl) rfl rfl⟩

/-- A failure envelope whose `stat` is neither `"ok"` nor `"fail"`. -/
def rspBadStat : Node :=
  ⟨"rsp", [("stat", "error")],
    [⟨"err", [("code", "1"), ("msg", "not found")], [], none⟩], none⟩

/-- Counterexample for C5: with `stat="error"` (not `"ok"`) and an `err`
child carrying code `"1"` and message `"not found"`, `parse_response`
raises the `AssertionError` of `FlipyFlickrError.__init__` (which asserts
`stat == 'fail'`), not a Protocol Error carrying the code and message. -/
theorem nonfail_status_raises_assertion_not_protocol_error :
    parse_response emptyRegistry sess0 rspBadStat = .error .assertionError ∧
    parse_response emptyRegistry sess0 rspBadStat ≠
      .error (.flickrError (some "1") (some "not found")) :=
  ⟨rfl, fun h => Err.noConfusion (Except.error.inj h)⟩

/-- C5 (amended): an envelope whose `stat` is `"fail"` with an `err` child
carrying code `c` and message `m` parses to a Protocol Error carrying `c`
and `m` (no Entity is constructed), and the same error surfaces from any
fetch performed inside `paginate`. -/
theorem fail_envelope_raises_protocol_error (CUSTOM : Registry) (fl : Session)
    (rsp errNode : Node) (c m : Option String)
    (hstat : nodeGet rsp "stat" = some "fail")
    (hfind : rsp.children.find? (fun n => n.tag == "err") = some errNode)
    (hc : nodeGet errNode "code" = c)
    (hm : nodeGet errNode "msg" = m) :
    parse_response CUSTOM fl rsp = .error (.flickrError c m) ∧
    ∀ (fetch : Nat → Node) (fuel page : Nat) (acc : List Entity) (nf : Nat),
      1 ≤ fuel → fetch page = rsp →
      paginateGo CUSTOM fl fetch fuel page acc nf = .err (.flickrError c m) acc (nf + 1) := by
  have hparse : parse_response CUSTOM fl rsp = .error (.flickrError c m) := by
    simp [parse_response, hstat, hfind, hc, hm]
  refine ⟨hparse, ?_⟩
  intro fetch fuel page acc nf hfuel hfetch
  obtain ⟨n, rfl⟩ : ∃ n, fuel = n + 1 := ⟨fuel - 1, by omega⟩
  simp [paginateGo, hfetch, hparse]

/-- A failure envelope with `stat="fail"` for the C5 witness. -/
def rspFail : Node :=
  ⟨"rsp", [("stat", "fail")],
    [⟨"err", [("code", "1"), ("msg", "not found")], [], none⟩], none⟩

/-- Witness for `fail_envelope_raises_protocol_error` on a concrete
failure envelope, both directly and inside a pagination fetch. -/
theorem fail_envelope_raises_protocol_error_witness :
    parse_response emptyRegistry sess0 rspFail =
      .error (.flickrError (some "1") (some "not found")) ∧
    paginateGo emptyRegistry sess0 (fun _ => rspFail) 1 1 [] 0 =
      .err (.flickrError (some "1") (some "not found")) [] 1 :=
  ⟨(fail_envelope_raises_protocol_error emptyRegistry sess0 rspFail
      ⟨"err", [("code", "1"), ("msg", "not found")], [], none⟩
      (some "1") (some "not found") rfl rfl rfl rfl).1,
    (fail_envelope_raises_protocol_error emptyRegistry sess0 rspFail
      ⟨"err", [("code", "1"), ("msg", "not found")], [], none⟩
      (some "1") (some "not found") rfl rfl rfl rfl).2
      (fun _ => rspFail) 1 1 [] 0 (Nat.le_refl 1) rfl⟩

/-- A registered constructor that ignores its arguments and returns a
fixed value, to observe whether registration overrides construction. -/
def ctorConst : Ctor := fun _ _ _ _ => Entity.scalar (some "custom")

/-- A registry with `ctorConst` registered for tag `"w"`. -/
def registryW : Registry := fun t => if t = "w" then some ctorConst else none

/-- A node with tag `"w"` whose attribute `a` collides with an element
child also named `a`. -/
def conflictNodeW : Node := ⟨"w", [("a", "1")], [⟨"a", [], [], some "t"⟩], none⟩

/-- Counterexample for C1: tag `"w"` is registered, yet `map` still runs
the default field/child construction first and raises Attribute Conflict
on the attribute/child collision — the registered constructor (which
would return the fixed entity `"custom"`) does not override construction,
and it is invoked with the computed `(session, tag, attrs, children)`
rather than with `(session, node)`. -/
theorem registered_tag_construction_not_overridden :
    registryW "w" = some ctorConst ∧
    mapNode registryW sess0 conflictNodeW = .error .attributeConflict ∧
    mapNode registryW sess0 conflictNodeW ≠ .ok (Entity.scalar (some "custom")) := by
  refine ⟨rfl, by rfl, fun h => ?_⟩
  rw [show mapNode registryW sess0 conflictNodeW = .error .attributeConflict from by rfl] at h
  exact Except.noConfusion h

/-- C1 (amended): for a node with at least one attribute or element
child, `Response.get` always computes the field map and positional
children with the default algorithm; when the tag is registered, the
registered constructor is invoked with `(session, node.tag, attrs,
children)` in place of the default `Response` constructor, which is used
only when the tag is absent from the registry. -/
theorem custom_ctor_receives_computed_parts (CUSTOM : Registry) (fl : Session)
    (tag : String) (attrib : List (String × String)) (children : List Node) (text : Option String)
    (attrs : List (String × Entity)) (kids : List Entity)
    (hne : ¬(attrib.length = 0 ∧ children.length = 0))
    (hbuild : buildParts CUSTOM fl (if endsInS tag then some (tag.dropRight 1) else none)
        tag children (attrsInit attrib) [] = .ok (attrs, kids)) :
    (∀ ctor, CUSTOM tag = some ctor →
      mapNode CUSTOM fl ⟨tag, attrib, children, text⟩ = .ok (ctor fl tag attrs kids)) ∧
    (CUSTOM tag = none →
      mapNode CUSTOM fl ⟨tag, attrib, children, text⟩ = .ok (.structured tag attrs kids)) := by
  simp only [List.length_eq_zero] at hne
  constructor
  · intro ctor hc
    simp [mapNode, hbuild, hc]
    intro h₁ h₂
    exact absurd ⟨h₁, h₂⟩ hne
  · intro hc
    simp [mapNode, hbuild, hc]
    intro h₁ h₂
    exact absurd ⟨h₁, h₂⟩ hne

/-- Witness for `custom_ctor_receives_computed_parts`: a registered tag
without conflicts yields the registered constructor's value applied to
the computed parts, and an unregistered tag yields the default
`Response`. -/
theorem custom_ctor_receives_computed_parts_witness :
    registryW "w" = some ctorConst ∧
    mapNode registryW sess0 ⟨"w", [("a", "1")], [], none⟩ = .ok (Entity.scalar (some "custom")) :=
  ⟨rfl,
    (custom_ctor_receives_computed_parts registryW sess0 "w" [("a", "1")] [] none
      [("a", .scalar (some "1"))] [] (by simp) (by rfl)).1 ctorConst rfl⟩

/-- Storing under key `k` then looking up `j` sees the new value exactly
when `j = k`. -/
theorem alookup_aset (j k : String) (v : β) (l : List (String × β)) :
    alookup j (aset k v l) = if k = j then some v else alookup j l := by
  induction l with
  | nil => simp [aset, alookup]
  | cons p rest ih =>
    obtain ⟨k₁, v₁⟩ := p
    by_cases h₁ : k₁ = k
    · subst h₁
      by_cases h₂ : k₁ = j <;> simp [aset, alookup, h₂]
    · by_cases h₂ : k₁ = j
      · subst h₂
        simp [aset, alookup, h₁, Ne.symm h₁]
      · simp [aset, alookup, h₁, h₂, ih]

/-- Storing a fresh key appends the binding at the end of the map. -/
theorem aset_of_alookup_none (k : String) (v : β) (l : List (String × β))
    (h : alookup k l = none) : aset k v l = l ++ [(k, v)] := by
  induction l with
  | nil => simp [aset]
  | cons p rest ih =>
    obtain ⟨k₁, v₁⟩ := p
    by_cases h₁ : k₁ = k
    · simp [alookup, h₁] at h
    · simp [alookup, h₁] at h
      simp [aset, h₁, ih h]

/-- Overwriting the same key twice keeps only the second store. -/
theorem aset_aset (k : String) (v₁ v₂ : β) (l : List (String × β)) :
    aset k v₂ (aset k v₁ l) = aset k v₂ l := by
  induction l with
  | nil => simp [aset]
  | cons p rest ih =>
    obtain ⟨k₁, w⟩ := p
    by_cases h₁ : k₁ = k <;> simp [aset, h₁, ih]

/-- Looking up a key bound at the end of a map that does not contain it
elsewhere finds that binding. -/
theorem alookup_append_right (k : String) (v : β) (l : List (String × β))
    (h : alookup k l = none) : alookup k (l ++ [(k, v)]) = some v := by
  induction l with
  | nil => simp [alookup]
  | cons p rest ih =>
    obtain ⟨k₁, v₁⟩ := p
    by_cases h₁ : k₁ = k
    · simp [alookup, h₁] at h
    · simp [alookup, h₁] at h ⊢
      exact ih h

/-- Overwriting a key bound at the end of a map that does not contain it
elsewhere rewrites that final binding in place. -/
theorem aset_append_right (k : String) (v w : β) (l : List (String × β))
    (h : alookup k l = none) : aset k w (l ++ [(k, v)]) = l ++ [(k, w)] := by
  induction l with
  | nil => simp [aset]
  | cons p rest ih =>
    obtain ⟨k₁, v₁⟩ := p
    by_cases h₁ : k₁ = k
    · simp [alookup, h₁] at h
    · simp [alookup, h₁] at h
      simp [aset, h₁, ih h]

/-- Every value in the attribute-seeded field map is a string scalar. -/
theorem attrsInit_lookup_scalar (k : String) (A : List (String × String)) (v : Entity)
    (h : alookup k (attrsInit A) = some v) : ∃ s, v = Entity.scalar (some s) := by
  induction A with
  | nil => simp [attrsInit, alookup] at h
  | cons p rest ih =>
    obtain ⟨k₁, s₁⟩ := p
    by_cases h₁ : k₁ = k
    · simp [attrsInit, alookup, h₁] at h
      exact ⟨s₁, h.symm⟩
    · simp [attrsInit, alookup, h₁] at h
      exact ih (by simpa [attrsInit] using h)

/-- Every child tag listed in the Multiples Table differs from the
stripped singular of its container tag, so the singular branch never
captures a multiples child. -/
theorem multiples_child_ne_singular (T C : String) (h : C ∈ MULTIPLES T) :
    (if endsInS T then some (T.dropRight 1) else none) ≠ some C := by
  unfold MULTIPLES at h
  split at h <;> simp_all <;> try rcases h with rfl | rfl
  all_goals decide

/-- C2: for a container/child pair `(T, C)` in the Multiples Table, one
`C` child yields field `C` as a one-element list, two `C` children yield
a two-element list in document order, and a pre-existing non-list field
named `C` (an XML attribute) raises Attribute Conflict. -/
theorem multiples_field_accumulates_ordered_list (CUSTOM : Registry) (fl : Session)
    (T C : String) (hTC : C ∈ MULTIPLES T) (hcustom : CUSTOM T = none) :
    (∀ (c : Node) (e : Entity) (A : List (String × String)) (txt : Option String),
      c.tag = C → alookup C (attrsInit A) = none → mapNode CUSTOM fl c = .ok e →
      mapNode CUSTOM fl ⟨T, A, [c], txt⟩ =
        .ok (.structured T (attrsInit A ++ [(C, .elist [e])]) [])) ∧
    (∀ (c₁ c₂ : Node) (e₁ e₂ : Entity) (A : List (String × String)) (txt : Option String),
      c₁.tag = C → c₂.tag = C → alookup C (attrsInit A) = none →
      mapNode CUSTOM fl c₁ = .ok e₁ → mapNode CUSTOM fl c₂ = .ok e₂ →
      mapNode CUSTOM fl ⟨T, A, [c₁, c₂], txt⟩ =
        .ok (.structured T (attrsInit A ++ [(C, .elist [e₁, e₂])]) [])) ∧
    (∀ (c : Node) (A : List (String × String)) (txt : Option String) (v : Entity),
      c.tag = C → alookup C (attrsInit A) = some v →
      mapNode CUSTOM fl ⟨T, A, [c], txt⟩ = .error .attributeConflict) := by
  have hsing := multiples_child_ne_singular T C hTC
  refine ⟨?_, ?_, ?_⟩
  · intro c e A txt hc hA hm
    simp [mapNode, buildParts, hc, hsing, hTC, hA, hm, hcustom, aset_of_alookup_none]
  · intro c₁ c₂ e₁ e₂ A txt hc₁ hc₂ hA hm₁ hm₂
    simp [mapNode, buildParts, hc₁, hc₂, hsing, hTC, hA, hm₁, hm₂, hcustom,
      aset_of_alookup_none, alookup_append_right, aset_append_right]
  · intro c A txt v hc hAv
    obtain ⟨s, rfl⟩ := attrsInit_lookup_scalar C A v hAv
    simp [mapNode, buildParts, hc, hsing, hTC, hAv]

/-- An `exif` child element for the C2 witness. -/
def exifNode (s : String) : Node := ⟨"exif", [("tagspace", s)], [], none⟩

/-- The mapped form of `exifNode`. -/
def exifEnt (s : String) : Entity := .structured "exif" [("tagspace", .scalar (some s))] []

/-- Witness for `multiples_field_accumulates_ordered_list` on the real
table pair `photo → exif`: one child gives a one-element list, two give a
two-element list in order, and an `exif` XML attribute conflicts. -/
theorem multiples_field_accumulates_ordered_list_witness :
    "exif" ∈ MULTIPLES "photo" ∧
    mapNode emptyRegistry sess0 ⟨"photo", [("id", "9")], [exifNode "TIFF"], none⟩ =
      .ok (.structured "photo"
        [("id", .scalar (some "9")), ("exif", .elist [exifEnt "TIFF"])] []) ∧
    mapNode emptyRegistry sess0 ⟨"photo", [("id", "9")], [exifNode "TIFF", exifNode "EXIF"], none⟩ =
      .ok (.structured "photo"
        [("id", .scalar (some "9")), ("exif", .elist [exifEnt "TIFF", exifEnt "EXIF"])] []) ∧
    mapNode emptyRegistry sess0 ⟨"photo", [("exif", "x")], [exifNode "TIFF"], none⟩ =
      .error .attributeConflict :=
  ⟨by decide,
    (multiples_field_accumulates_ordered_list emptyRegistry sess0 "photo" "exif"
      (by decide) rfl).1 (exifNode "TIFF") (exifEnt "TIFF") [("id", "9")] none
      rfl (by rfl) (by rfl),
    (multiples_field_accumulates_ordered_list emptyRegistry sess0 "photo" "exif"
      (by decide) rfl).2.1 (exifNode "TIFF") (exifNode "EXIF") (exifEnt "TIFF") (exifEnt "EXIF")
      [("id", "9")] none rfl rfl (by rfl) (by rfl) (by rfl),
    (multiples_field_accumulates_ordered_list emptyRegistry sess0 "photo" "exif"
      (by decide) rfl).2.2 (exifNode "TIFF") [("exif", "x")] none (.scalar (some "x"))
      rfl (by rfl)⟩

/-- Storing any binding preserves the presence of every present key. -/
theorem alookup_isSome_aset (k D : String) (x : β) (attrs : List (String × β))
    (h : (alookup D attrs).isSome = true) :
    (alookup D (aset k x attrs)).isSome = true := by
  rw [alookup_aset]
  split <;> simp [h]

/-- Once a key `D` that is neither the singular nor a multiples child of
the container is present in the field map, a later child tagged `D` makes
the child loop raise Attribute Conflict, whatever comes in between. -/
theorem buildParts_dup_conflict (CUSTOM : Registry) (fl : Session) (sing : Option String)
    (ptag D : String) (hsing : sing ≠ some D) (hmult : D ∉ MULTIPLES ptag) :
    ∀ (l₂ : List Node) (c₂ : Node) (l₃ : List Node) (attrs : List (String × Entity))
      (kids : List Entity), c₂.tag = D → (alookup D attrs).isSome = true →
      buildParts CUSTOM fl sing ptag (l₂ ++ c₂ :: l₃) attrs kids = .error .attributeConflict := by
  intro l₂
  induction l₂ with
  | nil =>
    intro c₂ l₃ attrs kids hc hD
    obtain ⟨v, hv⟩ := Option.isSome_iff_exists.mp hD
    rw [List.nil_append]
    simp [buildParts, hc, hsing, hmult, hv]
  | cons c l₂ ih =>
    intro c₂ l₃ attrs kids hc hD
    rw [List.cons_append]
    simp only [buildParts]
    by_cases h₁ : sing = some c.tag
    · rw [if_pos h₁]
      cases hm : mapNode CUSTOM fl c with
      | error e => cases e; rfl
      | ok e =>
        dsimp only
        exact ih c₂ l₃ attrs (kids ++ [e]) hc hD
    · rw [if_neg h₁]
      by_cases h₂ : c.tag ∈ MULTIPLES ptag
      · rw [if_pos h₂]
        cases hv : alookup c.tag attrs with
        | none =>
          cases hm : mapNode CUSTOM fl c with
          | error e => cases e; rfl
          | ok e =>
            dsimp only
            exact ih c₂ l₃ _ kids hc (alookup_isSome_aset _ _ _ _ hD)
        | some v =>
          cases v with
          | elist l =>
            cases hm : mapNode CUSTOM fl c with
            | error e => cases e; rfl
            | ok e =>
              dsimp only
              exact ih c₂ l₃ _ kids hc (alookup_isSome_aset _ _ _ _ hD)
          | scalar s => rfl
          | structured t as ks => rfl
      · rw [if_neg h₂]
        cases hv : alookup c.tag attrs with
        | some v => rfl
        | none =>
          cases hm : mapNode CUSTOM fl c with
          | error e => cases e; rfl
          | ok e =>
            dsimp only
            exact ih c₂ l₃ _ kids hc (alookup_isSome_aset _ _ _ _ hD)

/-- Two children with the same tag `D` — `D` being neither the singular
nor a multiples child of the container — always make the child loop raise
Attribute Conflict, whatever the surrounding children and the initial
field map. -/
theorem buildParts_two_dup (CUSTOM : Registry) (fl : Session) (sing : Option String)
    (ptag D : String) (hsing : sing ≠ some D) (hmult : D ∉ MULTIPLES ptag) :
    ∀ (l₁ : List Node) (c₁ : Node) (l₂ : List Node) (c₂ : Node) (l₃ : List Node)
      (attrs : List (String × Entity)) (kids : List Entity), c₁.tag = D → c₂.tag = D →
      buildParts CUSTOM fl sing ptag (l₁ ++ c₁ :: l₂ ++ c₂ :: l₃) attrs kids =
        .error .attributeConflict := by
  intro l₁
  induction l₁ with
  | nil =>
    intro c₁ l₂ c₂ l₃ attrs kids hc₁ hc₂
    rw [List.nil_append]
    simp only [buildParts, hc₁]
    rw [if_neg hsing]
    rw [if_neg hmult]
    cases hv : alookup D attrs with
    | some v => rfl
    | none =>
      cases hm : mapNode CUSTOM fl c₁ with
      | error e => cases e; rfl
      | ok e =>
        dsimp only
        refine buildParts_dup_conflict CUSTOM fl sing ptag D hsing hmult l₂ c₂ l₃ _ kids hc₂ ?_
        rw [alookup_aset]
        simp
  | cons c l₁ ih =>
    intro c₁ l₂ c₂ l₃ attrs kids hc₁ hc₂
    rw [List.cons_append]
    simp only [buildParts]
    by_cases h₁ : sing = some c.tag
    · rw [if_pos h₁]
      cases hm : mapNode CUSTOM fl c with
      | error e => cases e; rfl
      | ok e =>
        dsimp only
        exact ih c₁ l₂ c₂ l₃ attrs (kids ++ [e]) hc₁ hc₂
    · rw [if_neg h₁]
      by_cases h₂ : c.tag ∈ MULTIPLES ptag
      · rw [if_pos h₂]
        cases hv : alookup c.tag attrs with
        | none =>
          cases hm : mapNode CUSTOM fl c with
          | error e => cases e; rfl
          | ok e =>
            dsimp only
            exact ih c₁ l₂ c₂ l₃ _ kids hc₁ hc₂
        | some v =>
          cases v with
          | elist l =>
            cases hm : mapNode CUSTOM fl c with
            | error e => cases e; rfl
            | ok e =>
              dsimp only
              exact ih c₁ l₂ c₂ l₃ _ kids hc₁ hc₂
          | scalar s => rfl
          | structured t as ks => rfl
      · rw [if_neg h₂]
        cases hv : alookup c.tag attrs with
        | some v => rfl
        | none =>
          cases hm : mapNode CUSTOM fl c with
          | error e => cases e; rfl
          | ok e =>
            dsimp only
            exact ih c₁ l₂ c₂ l₃ _ kids hc₁ hc₂

/-- C6: two element children sharing a tag `D` that is neither the
container's stripped singular nor one of its Multiples-Table child tags
raise Attribute Conflict, while a single such child (not colliding with
any attribute-derived field) maps without error to a single field. -/
theorem repeated_plain_child_tag_conflicts (CUSTOM : Registry) (fl : Session) (T D : String)
    (hsing : ¬(endsInS T = true ∧ T.dropRight 1 = D))
    (hmult : D ∉ MULTIPLES T) :
    (∀ (A : List (String × String)) (l₁ : List Node) (c₁ : Node) (l₂ : List Node) (c₂ : Node)
      (l₃ : List Node) (txt : Option String), c₁.tag = D → c₂.tag = D →
      mapNode CUSTOM fl ⟨T, A, l₁ ++ c₁ :: l₂ ++ c₂ :: l₃, txt⟩ = .error .attributeConflict) ∧
    (∀ (A : List (String × String)) (c : Node) (e : Entity) (txt : Option String),
      c.tag = D → alookup D (attrsInit A) = none → CUSTOM T = none →
      mapNode CUSTOM fl c = .ok e →
      mapNode CUSTOM fl ⟨T, A, [c], txt⟩ =
        .ok (.structured T (attrsInit A ++ [(D, e)]) [])) := by
  have hsing2 : (if endsInS T then some (T.dropRight 1) else none) ≠ some D := by
    by_cases he : endsInS T = true
    · simp only [he, if_true]
      intro h
      exact hsing ⟨he, Option.some_injective _ h⟩
    · simp [he]
  refine ⟨?_, ?_⟩
  · intro A l₁ c₁ l₂ c₂ l₃ txt hc₁ hc₂
    simp only [mapNode]
    rw [if_neg (fun h => by simp at h)]
    rw [buildParts_two_dup CUSTOM fl _ T D hsing2 hmult l₁ c₁ l₂ c₂ l₃ (attrsInit A) [] hc₁ hc₂]
  · intro A c e txt hc hA hcustom hm
    simp [mapNode, buildParts, hc, hsing2, hmult, hA, hm, hcustom, aset_of_alookup_none]

/-- An `owner` child element for the C6 witness. -/
def ownerNode (s : String) : Node := ⟨"owner", [("nsid", s)], [], none⟩

/-- The mapped form of `ownerNode`. -/
def ownerEnt (s : String) : Entity := .structured "owner" [("nsid", .scalar (some s))] []

/-- Witness for `repeated_plain_child_tag_conflicts`: two `owner` children
under `photo` conflict; one maps to a single `owner` field. -/
theorem repeated_plain_child_tag_conflicts_witness :
    "owner" ∉ MULTIPLES "photo" ∧
    mapNode emptyRegistry sess0 ⟨"photo", [("id", "9")], [ownerNode "u1", ownerNode "u2"], none⟩ =
      .error .attributeConflict ∧
    mapNode emptyRegistry sess0 ⟨"photo", [("id", "9")], [ownerNode "u1"], none⟩ =
      .ok (.structured "photo" [("id", .scalar (some "9")), ("owner", ownerEnt "u1")] []) :=
  ⟨by decide,
    (repeated_plain_child_tag_conflicts emptyRegistry sess0 "photo" "owner"
      (by decide) (by decide)).1 [("id", "9")] [] (ownerNode "u1") [] (ownerNode "u2") [] none
      rfl rfl,
    (repeated_plain_child_tag_conflicts emptyRegistry sess0 "photo" "owner"
      (by decide) (by decide)).2 [("id", "9")] (ownerNode "u1") (ownerEnt "u1") none
      rfl (by rfl) rfl (by rfl)⟩

/-- Mapping a child list succeeds exactly when every child maps, with the
results aligned pointwise in document order. -/
theorem mapChildrenList_pointwise (CUSTOM : Registry) (fl : Session) :
    ∀ (children : List Node) (es : List Entity),
      mapChildrenList CUSTOM fl children = .ok es →
      es.length = children.length ∧
      ∀ i, i < children.length →
        ∃ ci ei, children[i]? = some ci ∧ es[i]? = some ei ∧ mapNode CUSTOM fl ci = .ok ei := by
  intro children
  induction children with
  | nil =>
    intro es hm
    simp only [mapChildrenList] at hm
    cases hm
    exact ⟨rfl, fun i hi => absurd hi (by simp)⟩
  | cons c rest ih =>
    intro es hm
    simp only [mapChildrenList] at hm
    cases hme : mapNode CUSTOM fl c with
    | error e => rw [hme] at hm; exact absurd hm (by simp)
    | ok e =>
      rw [hme] at hm
      cases hrest : mapChildrenList CUSTOM fl rest with
      | error e₂ => rw [hrest] at hm; exact absurd hm (by simp)
      | ok es₂ =>
        rw [hrest] at hm
        dsimp only at hm
        cases hm
        obtain ⟨hlen, hpt⟩ := ih es₂ hrest
        refine ⟨by simp [hlen], ?_⟩
        intro i hi
        cases i with
        | zero => exact ⟨c, e, by simp, by simp, hme⟩
        | succ j =>
          obtain ⟨ci, ei, h₁, h₂, h₃⟩ := hpt j (by simpa using hi)
          exact ⟨ci, ei, by simpa using h₁, by simpa using h₂, h₃⟩

/-- When every child carries the singular tag, the child loop appends all
mapped children to the positional list and leaves the field map alone. -/
theorem buildParts_all_singular (CUSTOM : Registry) (fl : Session) (s₁ ptag : String) :
    ∀ (children : List Node) (es : List Entity) (attrs : List (String × Entity))
      (kids : List Entity),
      (∀ c ∈ children, c.tag = s₁) →
      mapChildrenList CUSTOM fl children = .ok es →
      buildParts CUSTOM fl (some s₁) ptag children attrs kids = .ok (attrs, kids ++ es) := by
  intro children
  induction children with
  | nil =>
    intro es attrs kids _ hm
    simp only [mapChildrenList] at hm
    cases hm
    simp [buildParts]
  | cons c rest ih =>
    intro es attrs kids hall hm
    have hc : c.tag = s₁ := hall c (List.mem_cons_self c rest)
    simp only [mapChildrenList] at hm
    cases hme : mapNode CUSTOM fl c with
    | error e => rw [hme] at hm; exact absurd hm (by simp)
    | ok e =>
      rw [hme] at hm
      cases hrest : mapChildrenList CUSTOM fl rest with
      | error e₂ => rw [hrest] at hm; exact absurd hm (by simp)
      | ok es₂ =>
        rw [hrest] at hm
        dsimp only at hm
        cases hm
        simp only [buildParts]
        rw [if_pos (by rw [hc])]
        rw [hme]
        dsimp only
        rw [ih es₂ attrs (kids ++ [e]) (fun x hx => hall x (List.mem_cons_of_mem c hx)) hrest]
        simp

/-- C7: for a container tag ending in `"s"` — the singular being the tag
with exactly the trailing `"s"` stripped, with no linguistic special
cases (a tag `"bus"` strips to `"bu"`) — whose element children all carry
that singular tag, `map` returns a Structured Entity whose positional
children have the same length and order as the input children, and
indexing at position `i` returns the mapped `i`-th child. -/
theorem plural_container_maps_children_in_order (CUSTOM : Registry) (fl : Session)
    (tag : String) (A : List (String × String)) (children : List Node) (txt : Option String)
    (es : List Entity)
    (hs : endsInS tag = true)
    (hne : children ≠ [])
    (hall : ∀ c ∈ children, c.tag = tag.dropRight 1)
    (hcustom : CUSTOM tag = none)
    (hmap : mapChildrenList CUSTOM fl children = .ok es) :
    mapNode CUSTOM fl ⟨tag, A, children, txt⟩ = .ok (.structured tag (attrsInit A) es) ∧
    es.length = children.length ∧
    (∀ i, i < children.length →
      ∃ ci ei, children[i]? = some ci ∧ es[i]? = some ei ∧
        mapNode CUSTOM fl ci = .ok ei ∧
        entGetItem (.structured tag (attrsInit A) es) i = some ei) := by
  obtain ⟨hlen, hpt⟩ := mapChildrenList_pointwise CUSTOM fl children es hmap
  refine ⟨?_, hlen, ?_⟩
  · simp only [mapNode]
    rw [if_neg (fun h => hne (List.length_eq_zero.mp h.2))]
    simp only [hs, if_true]
    rw [buildParts_all_singular CUSTOM fl (tag.dropRight 1) tag children es (attrsInit A) []
      hall hmap]
    simp [hcustom]
  · intro i hi
    obtain ⟨ci, ei, h₁, h₂, h₃⟩ := hpt i hi
    exact ⟨ci, ei, h₁, h₂, h₃, by simp [entGetItem, h₂]⟩

/-- A `bu` child element for the C7 witness. -/
def buNode (s : String) : Node := ⟨"bu", [("n", s)], [], none⟩

/-- The mapped form of `buNode`. -/
def buEnt (s : String) : Entity := .structured "bu" [("n", .scalar (some s))] []

/-- Witness for `plural_container_maps_children_in_order` on the
suffix-heuristic false positive `"bus"`: its singular is `"bu"`, and two
`bu` children become positional children in order. -/
theorem plural_container_maps_children_in_order_witness :
    endsInS "bus" = true ∧ "bus".dropRight 1 = "bu" ∧
    mapNode emptyRegistry sess0 ⟨"bus", [("id", "1")], [buNode "a", buNode "b"], none⟩ =
      .ok (.structured "bus" [("id", .scalar (some "1"))] [buEnt "a", buEnt "b"]) ∧
    entGetItem (.structured "bus" [("id", .scalar (some "1"))] [buEnt "a", buEnt "b"]) 1 =
      some (buEnt "b") :=
  ⟨rfl, rfl,
    (plural_container_maps_children_in_order emptyRegistry sess0 "bus" [("id", "1")]
      [buNode "a", buNode "b"] none [buEnt "a", buEnt "b"] rfl (by simp)
      (by
        intro c hc
        simp only [List.mem_cons, List.mem_singleton] at hc
        rcases hc with h | h | h
        · rw [h]; rfl
        · rw [h]; rfl
        · exact absurd h (by simp))
      rfl (by rfl)).1,
    by rfl⟩

/-- Strict key order on argument pairs. -/
def argStrict (p q : String × String) : Prop := p.1.toList < q.1.toList

/-- Strings with the same character list are equal. -/
theorem string_toList_inj {s t : String} (h : s.toList = t.toList) : s = t := by
  cases s
  cases t
  simp only [String.toList] at h
  rw [h]

instance : IsAntisymm (String × String) argStrict :=
  ⟨fun _ _ h₁ h₂ => absurd h₁ (lt_asymm h₂)⟩

/-- In a key-unique argument map, membership of a pair is the same as the
lookup of its key returning its value. -/
theorem mem_iff_alookup (a : List (String × β))
    (h : a.Pairwise fun p q => p.1 ≠ q.1) (k : String) (v : β) :
    (k, v) ∈ a ↔ alookup k a = some v := by
  induction a with
  | nil => simp [alookup]
  | cons p rest ih =>
    obtain ⟨k₁, v₁⟩ := p
    rw [List.pairwise_cons] at h
    obtain ⟨hhead, htail⟩ := h
    by_cases hk : k₁ = k
    · subst hk
      rw [alookup, if_pos rfl]
      constructor
      · intro hm
        rcases List.mem_cons.mp hm with heq | hmem
        · injection heq with h₁ h₂
          rw [h₂]
        · exact absurd rfl (hhead (k₁, v) hmem)
      · intro hl
        injection hl with h₁
        subst h₁
        exact List.mem_cons_self _ _
    · rw [alookup, if_neg hk]
      constructor
      · intro hm
        rcases List.mem_cons.mp hm with heq | hmem
        · injection heq with h₁ h₂
          exact absurd h₁.symm hk
        · exact (ih htail).mp hmem
      · intro hl
        exact List.mem_cons_of_mem _ ((ih htail).mpr hl)

/-- Two key-unique argument maps that agree on every lookup are
permutations of each other. -/
theorem perm_of_alookup_ext (a b : List (String × β))
    (ha : a.Pairwise fun p q => p.1 ≠ q.1) (hb : b.Pairwise fun p q => p.1 ≠ q.1)
    (hl : ∀ k, alookup k a = alookup k b) : a.Perm b := by
  have hna : a.Nodup := ha.imp (fun hne heq => hne (congrArg Prod.fst heq))
  have hnb : b.Nodup := hb.imp (fun hne heq => hne (congrArg Prod.fst heq))
  refine (List.perm_ext_iff_of_nodup hna hnb).mpr ?_
  intro p
  obtain ⟨k, v⟩ := p
  rw [mem_iff_alookup a ha k v, mem_iff_alookup b hb k v, hl k]

/-- Sorting by key maps two lookup-equal key-unique argument maps to the
same list: the sort permutes, and a strictly key-sorted list is unique in
its permutation class. -/
theorem sortArgs_eq_of_alookup_ext (a b : List (String × String))
    (ha : a.Pairwise fun p q => p.1 ≠ q.1) (hb : b.Pairwise fun p q => p.1 ≠ q.1)
    (hl : ∀ k, alookup k a = alookup k b) : sortArgs a = sortArgs b := by
  have hperm : (sortArgs a).Perm (sortArgs b) :=
    (List.perm_insertionSort argOrder a).trans
      ((perm_of_alookup_ext a b ha hb hl).trans (List.perm_insertionSort argOrder b).symm)
  have hna : (sortArgs a).Pairwise (fun p q : String × String => p.1 ≠ q.1) :=
    ((List.perm_insertionSort argOrder a).pairwise_iff (fun h => Ne.symm h)).mpr ha
  have hnb : (sortArgs b).Pairwise (fun p q : String × String => p.1 ≠ q.1) :=
    ((List.perm_insertionSort argOrder b).pairwise_iff (fun h => Ne.symm h)).mpr hb
  have hsa : (sortArgs a).Pairwise argOrder := List.sorted_insertionSort argOrder a
  have hsb : (sortArgs b).Pairwise argOrder := List.sorted_insertionSort argOrder b
  have hstricta : (sortArgs a).Sorted argStrict :=
    (hsa.and hna).imp (fun hpq => lt_of_le_of_ne hpq.1 (fun heq => hpq.2 (string_toList_inj heq)))
  have hstrictb : (sortArgs b).Sorted argStrict :=
    (hsb.and hnb).imp (fun hpq => lt_of_le_of_ne hpq.1 (fun heq => hpq.2 (string_toList_inj heq)))
  exact List.eq_of_perm_of_sorted hperm hstricta hstrictb

/-- C4: for any digest function, signing is deterministic and independent
of argument insertion order — two key-unique argument maps equal as
key-to-value mappings produce the identical signature, namely the digest
of the secret followed by each key+value pair in sorted key order with no
separators — and the signature is stored under the reserved key
`api_sig`. -/
theorem signing_order_independent (md5 : String → String) (secret : String)
    (a b : List (String × String))
    (ha : a.Pairwise fun p q => p.1 ≠ q.1) (hb : b.Pairwise fun p q => p.1 ≠ q.1)
    (hl : ∀ k, alookup k a = alookup k b) :
    signArgs md5 secret a = signArgs md5 secret b ∧
    signArgs md5 secret a = md5 (sigPayload secret (sortArgs a)) ∧
    alookup "api_sig" (addSig md5 secret a) = some (signArgs md5 secret a) := by
  refine ⟨?_, rfl, ?_⟩
  · unfold signArgs
    rw [sortArgs_eq_of_alookup_ext a b ha hb hl]
  · unfold addSig
    rw [alookup_aset]
    simp

/-- Witness for `signing_order_independent`: the maps `{b:2, a:1}` and
`{a:1, b:2}` sign identically; with the identity function standing in for
the digest, the payload is visibly `secret + a + 1 + b + 2`. -/
theorem signing_order_independent_witness :
    signArgs (fun s => s) "sec" [("b", "2"), ("a", "1")] =
      signArgs (fun s => s) "sec" [("a", "1"), ("b", "2")] ∧
    signArgs (fun s => s) "sec" [("b", "2"), ("a", "1")] = "seca1b2" ∧
    alookup "api_sig" (addSig (fun s => s) "sec" [("b", "2"), ("a", "1")]) = some "seca1b2" := by
  have h := signing_order_independent (fun s => s) "sec" [("b", "2"), ("a", "1")]
    [("a", "1"), ("b", "2")] (by decide) (by decide)
    (by
      intro k
      by_cases h₁ : "b" = k
      · subst h₁; rfl
      · by_cases h₂ : "a" = k
        · subst h₂; rfl
        · simp [alookup, h₁, h₂])
  exact ⟨h.1, h.2.1.trans (by rfl), h.2.2.trans (by rfl)⟩
